import Mathlib

/-!
Shallow embedding of the RPI-Cam-Web-Interface-Scraper pipeline
(`src/rpicam_scraper/{video_scraper,video_processor,youtube_uploader,scheduler}.py`)
and proofs about its retry, parsing, cleanup and scheduling behaviour.

Strings are modelled as Lean `String`; regular-expression extraction is
modelled character-by-character with the leftmost-match semantics of
Python's `re.search`; filesystem and network effects are modelled with
explicit state and event traces.
-/

namespace RPiCam

/-- Python `str.startswith`, on character lists. -/
def listStartsWith : List Char → List Char → Bool
  | [], _ => true
  | _ :: _, [] => false
  | p :: ps, c :: cs => p = c && listStartsWith ps cs

/-- Python `str.endswith`, on character lists. -/
def listEndsWith (p s : List Char) : Bool :=
  listStartsWith p.reverse s.reverse

/-- Maximal run of ASCII digits at the head of the list (`\d+` greedy),
returning the run and the rest. -/
def takeDigits : List Char → List Char × List Char
  | [] => ([], [])
  | c :: cs =>
    if c.isDigit then
      let (ds, rest) := takeDigits cs
      (c :: ds, rest)
    else ([], c :: cs)

/-- Match `\d+ MB` anchored at the head of the list, returning the matched
characters (`re.search(r"(\d+ MB)", ...)`'s group at one start position). -/
def matchSizeAt (l : List Char) : Option (List Char) :=
  let (ds, rest) := takeDigits l
  if ds = [] then none
  else if listStartsWith [' ', 'M', 'B'] rest then some (ds ++ [' ', 'M', 'B'])
  else none

/-- Match `\d+s` anchored at the head of the list. -/
def matchDurationAt (l : List Char) : Option (List Char) :=
  let (ds, rest) := takeDigits l
  if ds = [] then none
  else
    match rest with
    | 's' :: _ => some (ds ++ ['s'])
    | _ => none

/-- Match `\d{4}-\d{2}-\d{2}` anchored at the head of the list. -/
def matchDateAt : List Char → Option (List Char)
  | a :: b :: c :: d :: h1 :: e :: f :: h2 :: g :: h :: _ =>
    if a.isDigit && b.isDigit && c.isDigit && d.isDigit && h1 = '-' &&
       e.isDigit && f.isDigit && h2 = '-' && g.isDigit && h.isDigit then
      some [a, b, c, d, h1, e, f, h2, g, h]
    else none
  | _ => none

/-- Match `\d{2}:\d{2}:\d{2}` anchored at the head of the list. -/
def matchTimeAt : List Char → Option (List Char)
  | a :: b :: c1 :: c :: d :: c2 :: e :: f :: _ =>
    if a.isDigit && b.isDigit && c1 = ':' && c.isDigit && d.isDigit &&
       c2 = ':' && e.isDigit && f.isDigit then
      some [a, b, c1, c, d, c2, e, f]
    else none
  | _ => none

/-- Leftmost match: try `m` at every start position from left to right,
as `re.search` does. -/
def searchFirst (m : List Char → Option (List Char)) : List Char → Option (List Char)
  | [] => m []
  | c :: rest =>
    match m (c :: rest) with
    | some r => some r
    | none => searchFirst m rest

/-- The matched group as a string, or `""` when there is no match
(`size_match.group(1) if size_match else ""`). -/
def groupOrEmpty (m : List Char → Option (List Char)) (details : String) : String :=
  match searchFirst m details.toList with
  | some r => String.mk r
  | none => ""

/-- One `<fieldset class="fileicon">` listing entry, at the interface the
parser consumes: the first `<a href>` (if any), the `value` of the
`name="delete1"` button (if any), and `get_text(" ", strip=True)`. -/
structure Fieldset where
  href : Option String
  delete1_value : Option String
  text : String
  deriving DecidableEq, Repr

/-- The dict returned by `VideoScraper.parse_video_metadata`. -/
structure VideoMeta where
  video : String
  thumbnail : Option String
  title : String
  size : String
  duration : String
  date : String
  time : String
  deriving DecidableEq, Repr

/-- `VideoScraper.parse_video_metadata` (video_scraper.py lines 23-72). -/
def parse_video_metadata (fieldset : Fieldset) : Option VideoMeta :=
  match fieldset.href with
  | none => none
  | some href =>
    if listStartsWith "media/".toList href.toList &&
       listEndsWith ".mp4".toList href.toList then
      let details := fieldset.text
      let size := groupOrEmpty matchSizeAt details
      let duration := groupOrEmpty matchDurationAt details
      let date := groupOrEmpty matchDateAt details
      let time_str := groupOrEmpty matchTimeAt details
      let title := if date ≠ "" && time_str ≠ "" then date ++ " " ++ time_str
                   else "Unknown DateTime"
      some { video := href, thumbnail := fieldset.delete1_value, title := title,
             size := size, duration := duration, date := date, time := time_str }
    else none

/-- The parse step of `fetch_video_list`: entries whose metadata parses are
kept, the rest are dropped. -/
def parseListing (fieldsets : List Fieldset) : List VideoMeta :=
  fieldsets.filterMap parse_video_metadata

/-! ## The retry loop of `fetch_video_list` / `concatenate_videos`

Both loops have the shape
`for attempt in range(N): <try the operation>; on failure: time.sleep(2 ** attempt)`:
in `fetch_video_list` the sleep sits in the `except` block, in
`concatenate_videos` it is the last statement of a loop body that `return`s
early on success — in both, every failed attempt is followed by a sleep of
`2 ** attempt` seconds, including the final one. -/

/-- One observable step of a retry loop: an attempt (with its 0-indexed
number) or a sleep (with its duration in seconds). -/
inductive RetryEvent where
  | attempt (i : Nat)
  | slept (seconds : Nat)
  deriving DecidableEq, Repr

/-- The retry loop of `fetch_video_list` (video_scraper.py lines 81-95) and
`concatenate_videos` (video_processor.py lines 69-94): `ok i` tells whether
attempt number `i` succeeds; returns the event trace and the overall
outcome. Arguments: remaining iterations, then current attempt number. -/
def retryTrace (ok : Nat → Bool) : Nat → Nat → List RetryEvent × Bool
  | 0, _ => ([], false)
  | n + 1, i =>
    if ok i then ([.attempt i], true)
    else
      let (evs, r) := retryTrace ok n (i + 1)
      (.attempt i :: .slept (2 ^ i) :: evs, r)

/-- Number of attempts in a retry trace. -/
def countAttempts (evs : List RetryEvent) : Nat :=
  (evs.filter fun e => match e with | .attempt _ => true | _ => false).length

/-- Number of sleeps in a retry trace. -/
def countSleeps (evs : List RetryEvent) : Nat :=
  (evs.filter fun e => match e with | .slept _ => true | _ => false).length

/-! ## `fetch_and_clean` (video_scraper.py lines 182-200)

The per-record effects are modelled as an event trace: the outcome of the
local download of each record, and every server-side deletion request
(HTTP POST with the `delete1` form field) that is issued. -/

/-- An observable effect of the fetch-and-purge stage. -/
inductive ScrapeEvent where
  | download (video : String) (ok : Bool)
  | deleteReq (thumb : String)
  deriving DecidableEq, Repr

/-- The retry loop of `delete_video_from_server` (video_scraper.py lines
161-177): every attempt issues one POST carrying the thumbnail handle;
`ok i` is whether attempt `i` gets a 200 response. -/
def deleteLoop (thumb : String) (ok : Nat → Bool) : Nat → Nat → Bool × List ScrapeEvent
  | 0, _ => (false, [])
  | n + 1, i =>
    if ok i then (true, [.deleteReq thumb])
    else
      let (r, evs) := deleteLoop thumb ok n (i + 1)
      (r, .deleteReq thumb :: evs)

/-- Python truthiness of `video_meta.get('thumbnail')`: a missing handle
(`None`) and an empty-string handle are both falsy. -/
def truthyHandle : Option String → Bool
  | none => false
  | some s => s ≠ ""

/-- `VideoScraper.delete_video_from_server` (video_scraper.py lines
147-180): `if not video_meta.get('thumbnail')` — a missing or empty-string
thumbnail ⇒ no request at all, immediate `False`; otherwise up to
`maxRetries` POST requests. -/
def delete_video_from_server (maxRetries : Nat) (delOk : Nat → Bool)
    (video_meta : VideoMeta) : Bool × List ScrapeEvent :=
  match video_meta.thumbnail with
  | none => (false, [])
  | some thumb =>
    if thumb = "" then (false, [])
    else deleteLoop thumb delOk maxRetries 0

/-- The body of the `for video_meta in videos` loop of `fetch_and_clean`
(video_scraper.py lines 196-200): download, and only on download success
call `delete_video_from_server`. `dOk` is the overall outcome of
`download_video` for the record, `delOk` the per-attempt outcome of its
deletion POSTs. -/
def processRecord (maxRetries : Nat) (dOk : VideoMeta → Bool)
    (delOk : VideoMeta → Nat → Bool) (video_meta : VideoMeta) : List ScrapeEvent :=
  if dOk video_meta then
    .download video_meta.video true ::
      (delete_video_from_server maxRetries (delOk video_meta) video_meta).2
  else [.download video_meta.video false]

/-- `VideoScraper.fetch_and_clean` (video_scraper.py lines 182-200), given
the already-fetched listing: each record is processed in order,
independently of the others' outcomes. -/
def fetch_and_clean (maxRetries : Nat) (dOk : VideoMeta → Bool)
    (delOk : VideoMeta → Nat → Bool) : List VideoMeta → List ScrapeEvent
  | [] => []
  | m :: rest =>
    processRecord maxRetries dOk delOk m ++ fetch_and_clean maxRetries dOk delOk rest

/-- Whether a trace contains a server-side deletion request. -/
def hasDeleteReq (evs : List ScrapeEvent) : Bool :=
  evs.any fun e => match e with | .deleteReq _ => true | _ => false

/-! ## `YouTubeUploader.upload_video` (youtube_uploader.py lines 51-110)

The pre-loop setup — `get_authenticated_service()` when no service handle
exists yet (line 63-64) and `MediaFileUpload(file_path, ...)` (line 78) —
runs OUTSIDE the `try`/`except` of the retry loop, so an exception there
propagates to the caller; it is modelled with `Except`. Inside the loop,
every exception is caught (lines 97-107) and classified: `e.resp.status ==
403` sleeps a fixed 3600 s, anything else sleeps `2 ** attempt` seconds. -/

/-- Outcome of one upload attempt: success, an exception whose response
status is 403 (rate limit), or any other exception. -/
inductive AttemptOutcome where
  | success
  | fail403
  | failOther
  deriving DecidableEq, Repr

/-- An observable step of the upload retry loop. -/
inductive UploadEvent where
  | attempt (i : Nat)
  | slept (seconds : Nat)
  deriving DecidableEq, Repr

/-- The `for attempt in range(config.MAX_RETRIES)` loop of `upload_video`
(lines 80-107): a 403 failure sleeps 3600 s, any other failure sleeps
`2 ^ attempt` seconds; every failure is caught. -/
def uploadLoop (outcome : Nat → AttemptOutcome) : Nat → Nat → Bool × List UploadEvent
  | 0, _ => (false, [])
  | n + 1, i =>
    match outcome i with
    | .success => (true, [.attempt i])
    | .fail403 =>
      let (r, evs) := uploadLoop outcome n (i + 1)
      (r, .attempt i :: .slept 3600 :: evs)
    | .failOther =>
      let (r, evs) := uploadLoop outcome n (i + 1)
      (r, .attempt i :: .slept (2 ^ i) :: evs)

/-- `YouTubeUploader.upload_video`: `serviceReady` is whether
`self.youtube_service` is already set; `authResult` the behaviour of
`get_authenticated_service()` (it may raise); `mediaResult` the behaviour of
the `MediaFileUpload` constructor (it raises when `file_path` is missing);
`outcome` the per-attempt behaviour of the resumable upload. An `Except.error`
value is an exception propagating to the caller. -/
def upload_video (maxRetries : Nat) (serviceReady : Bool)
    (authResult : Except String Unit) (mediaResult : Except String Unit)
    (outcome : Nat → AttemptOutcome) : Except String (Bool × List UploadEvent) := do
  if !serviceReady then
    let () ← authResult
  let () ← mediaResult
  return uploadLoop outcome maxRetries 0

/-- Number of upload attempts in a trace. -/
def countUploadAttempts (evs : List UploadEvent) : Nat :=
  (evs.filter fun e => match e with | .attempt _ => true | _ => false).length

/-! ## `VideoProcessor` (video_processor.py)

The filesystem is modelled as the state of the one day-bucket directory a
`process_daily_videos` run touches: whether the directory exists and which
file names it holds. External outcomes (ffmpeg, YouTube) are booleans; the
retry loops inside them are modelled by `retryTrace` / `uploadLoop` above,
only their overall outcome matters here. -/

/-- State of the day-bucket directory. -/
structure FS where
  dirExists : Bool
  files : List String
  deriving DecidableEq, Repr

/-- An observable effect of a `process_daily_videos` run. -/
inductive PEvent where
  | wroteManifest (files : List String)
  | ranConcat (files : List String) (output : String)
  | uploadCalled (path : String) (title : String)
  | deletedFile (name : String)
  | removedDir
  deriving DecidableEq, Repr

/-- Python string comparison (lexicographic on code points), as used by
`sorted`. -/
def charListLe : List Char → List Char → Bool
  | [], _ => true
  | _ :: _, [] => false
  | a :: as, b :: bs => if a = b then charListLe as bs else decide (a < b)

/-- `a <= b` for Python strings. -/
def strLe (a b : String) : Bool :=
  charListLe a.toList b.toList

/-- Stable insertion into a sorted list. -/
def insertSorted (x : String) : List String → List String
  | [] => [x]
  | y :: ys => if strLe x y then x :: y :: ys else y :: insertSorted x ys

/-- Python `sorted` on strings (insertion sort; same multiset, sorted by
`strLe`). -/
def sortStrings : List String → List String
  | [] => []
  | x :: xs => insertSorted x (sortStrings xs)

/-- `VideoProcessor.get_video_files` (video_processor.py lines 21-34):
`sorted([f for f in os.listdir(day_dir) if f.endswith('.mp4')])`, or `[]`
when the directory does not exist. -/
def get_video_files (fs : FS) : List String :=
  if fs.dirExists then
    sortStrings (fs.files.filter fun f => listEndsWith ".mp4".toList f.toList)
  else []

/-- `os.path.join` for the concrete paths this program builds (directory
without trailing slash, relative file name). -/
def joinPath (a b : String) : String :=
  a ++ "/" ++ b

/-- Creating (or overwriting) a file in the day-bucket directory. -/
def addFile (fs : FS) (name : String) : FS :=
  if name ∈ fs.files then fs else { fs with files := fs.files ++ [name] }

/-- `VideoProcessor.cleanup_files` (video_processor.py lines 96-111): for
each name in order, delete it if it exists, recording the deletion; a
missing file is skipped. -/
def cleanup_files (fs : FS) : List String → FS × List PEvent
  | [] => (fs, [])
  | f :: rest =>
    if f ∈ fs.files then
      let fs' : FS := { fs with files := fs.files.filter fun g => g ≠ f }
      let (fs'', evs) := cleanup_files fs' rest
      (fs'', .deletedFile f :: evs)
    else cleanup_files fs rest

/-- `VideoProcessor.concatenate_videos` (video_processor.py lines 55-94):
`create_ffmpeg_file_list` writes `files.txt` into the day directory, then
ffmpeg is run under the retry loop; on overall success the output file
exists. `concatOk` is the overall outcome of the retried ffmpeg
invocations. -/
def concatenate_videos (concatOk : Bool) (fs : FS) (files : List String)
    (output_filename : String) : Bool × FS × List PEvent :=
  let fs1 := addFile fs "files.txt"
  if concatOk then
    (true, addFile fs1 output_filename,
     [.wroteManifest files, .ranConcat files output_filename])
  else (false, fs1, [.wroteManifest files])

/-- `VideoProcessor.process_daily_videos` (video_processor.py lines
113-167). `dataDir` and `titleStem` model `config.DATA_DIR` and
`config.YOUTUBE_UPLOAD_TITLE_PREFIX`; `concatOk` and `uploadOk` are the
overall outcomes of `concatenate_videos`' ffmpeg runs and of
`upload_video`. Returns (result, final directory state, event trace). -/
def process_daily_videos (dataDir titleStem : String) (date_str : String)
    (concatOk uploadOk : Bool) (fs : FS) : Bool × FS × List PEvent :=
  let day_dir := joinPath dataDir date_str
  if !fs.dirExists then (false, fs, [])
  else
    let files := get_video_files fs
    if files = [] then (false, fs, [])
    else
      let output_filename := date_str ++ "_combined.mp4"
      let output_path := joinPath day_dir output_filename
      let (cok, fs1, evs1) := concatenate_videos concatOk fs files output_filename
      if !cok then (false, fs1, evs1)
      else
        let title := titleStem ++ " " ++ date_str
        if uploadOk then
          let files_to_delete := files ++ ["files.txt", output_filename]
          let (fs2, evs2) := cleanup_files fs1 files_to_delete
          if fs2.files = [] then
            (true, { fs2 with dirExists := false },
             evs1 ++ [.uploadCalled output_path title] ++ evs2 ++ [.removedDir])
          else
            (true, fs2, evs1 ++ [.uploadCalled output_path title] ++ evs2)
        else (false, fs1, evs1 ++ [.uploadCalled output_path title])

/-- The `(file_path, title)` arguments of the `upload_video` calls in a
trace. -/
def uploadCalls (evs : List PEvent) : List (String × String) :=
  evs.filterMap fun e => match e with
    | .uploadCalled p t => some (p, t)
    | _ => none

/-- The names whose deletion a trace records. -/
def deletedNames (evs : List PEvent) : List String :=
  evs.filterMap fun e => match e with
    | .deletedFile n => some n
    | _ => none

/-! ## `RPiCamScheduler` (scheduler.py)

Wall-clock instants are modelled as a calendar-date ordinal plus a
minute-of-day; `should_run_daily_process` zeroes seconds on the target, so
`now >= target_time` on the same day is exactly `target ≤ now.minutes`. -/

/-- A wall-clock instant at tick granularity. -/
structure Clock where
  date : Nat
  minutes : Nat
  deriving DecidableEq, Repr

/-- The scheduler's daily-run state: `self.last_daily_process`, the date of
the last successful daily run (scheduler.py line 22). -/
structure SchedState where
  last_daily_process : Option Nat
  deriving DecidableEq, Repr

/-- `RPiCamScheduler.should_run_daily_process` (scheduler.py lines 24-42):
true iff `now >= target_time` and the last successful run is unset or not
today. `target` is the configured time-of-day in minutes. -/
def should_run_daily_process (target : Nat) (now : Clock) (st : SchedState) : Bool :=
  decide (target ≤ now.minutes) &&
    (match st.last_daily_process with
     | none => true
     | some d => decide (d ≠ now.date))

/-- `RPiCamScheduler.run_daily_process` (scheduler.py lines 53-64): on
success, record today's date; on failure, leave the state unchanged. -/
def run_daily_process (success : Bool) (now : Clock) (st : SchedState) : SchedState :=
  if success then { last_daily_process := some now.date } else st

/-- The daily-processing step of one iteration of `run_scheduler`
(scheduler.py lines 84-85): returns the new state and whether the daily
pipeline was triggered. `success` is the outcome the pipeline would have
on this tick. -/
def schedulerTick (target : Nat) (now : Clock) (success : Bool)
    (st : SchedState) : SchedState × Bool :=
  if should_run_daily_process target now st then
    (run_daily_process success now st, true)
  else (st, false)

/-- Number of successful daily-pipeline runs over a sequence of ticks, each
tick given as its clock instant and the pipeline outcome it would have. -/
def successRuns (target : Nat) (st : SchedState) : List (Clock × Bool) → Nat
  | [] => 0
  | (now, succ) :: rest =>
    let (st', fired) := schedulerTick target now succ st
    (if fired && succ then 1 else 0) + successRuns target st' rest

/-- The per-tick "daily pipeline triggered" flags over a sequence of ticks. -/
def firedFlags (target : Nat) (st : SchedState) : List (Clock × Bool) → List Bool
  | [] => []
  | (now, succ) :: rest =>
    let (st', fired) := schedulerTick target now succ st
    fired :: firedFlags target st' rest

/-- The trace of a retry loop whose operation fails on every attempt,
starting at attempt number `i` with `n` iterations left: each failed
attempt is followed by its backoff sleep. -/
def failTrace : Nat → Nat → List RetryEvent
  | 0, _ => []
  | n + 1, i => .attempt i :: .slept (2 ^ i) :: failTrace n (i + 1)

/-! ## Theorems -/

lemma retryTrace_allFail (n i : Nat) :
    retryTrace (fun _ => false) n i = (failTrace n i, false) := by
  induction n generalizing i with
  | zero => simp [retryTrace, failTrace]
  | succ k ih => simp [retryTrace, failTrace, ih]

/-- C4 (counterexample): with `N = 3` and an operation failing on every
attempt, the retry loop of `fetch_video_list` / `concatenate_videos` does
NOT sleep exactly twice — it sleeps three times (the sleep also runs after
the final failed attempt). -/
theorem retry_sleeps_not_twice :
    ¬ countSleeps (retryTrace (fun _ => false) 3 0).1 = 2 := by decide

/-- C4 (amended): with `N = 3` and an always-failing operation the retry
loop performs exactly 3 attempts and sleeps exactly 3 times — after every
failed attempt, including the final one — the sleep after attempt `i`
(0-indexed) being `2 ^ i` seconds; in general an always-failing run is
attempt/sleep pairs for every attempt number. -/
theorem retry_three_attempts_three_sleeps :
    (∀ n i, retryTrace (fun _ => false) n i = (failTrace n i, false)) ∧
    retryTrace (fun _ => false) 3 0 =
      ([.attempt 0, .slept 1, .attempt 1, .slept 2, .attempt 2, .slept 4], false) ∧
    countAttempts (retryTrace (fun _ => false) 3 0).1 = 3 ∧
    countSleeps (retryTrace (fun _ => false) 3 0).1 = 3 :=
  ⟨retryTrace_allFail, by decide, by decide, by decide⟩

/-- C9: `parse_video_metadata` keeps exactly the entries whose href matches
the media pattern (`media/…​.mp4`), never raising; the listing text
`"26 MB 19s 2025-08-12 19:52:10"` parses to size `"26 MB"`, duration
`"19s"`, date `"2025-08-12"`, time `"19:52:10"`, title
`"2025-08-12 19:52:10"`; a text with no date/time tokens parses to title
`"Unknown DateTime"` with empty date and time, the record still being
returned. -/
theorem parse_video_metadata_spec :
    (∀ fieldset : Fieldset, (parse_video_metadata fieldset).isSome = true ↔
       ∃ h, fieldset.href = some h ∧
         (listStartsWith "media/".toList h.toList &&
          listEndsWith ".mp4".toList h.toList) = true) ∧
    parse_video_metadata
        ⟨some "media/video001.mp4", some "thumb001", "26 MB 19s 2025-08-12 19:52:10"⟩ =
      some ⟨"media/video001.mp4", some "thumb001", "2025-08-12 19:52:10",
            "26 MB", "19s", "2025-08-12", "19:52:10"⟩ ∧
    parse_video_metadata ⟨some "media/video001.mp4", some "thumb001", "video clip"⟩ =
      some ⟨"media/video001.mp4", some "thumb001", "Unknown DateTime", "", "", "", ""⟩ := by
  refine ⟨?_, by decide, by decide⟩
  rintro ⟨href?, dv, tx⟩
  cases href? with
  | none => simp [parse_video_metadata]
  | some h =>
    by_cases hc : (listStartsWith "media/".toList h.toList &&
        listEndsWith ".mp4".toList h.toList) = true
    · simp [parse_video_metadata, hc]
    · simp [parse_video_metadata, hc]

lemma deleteLoop_issues_request (thumb : String) (ok : Nat → Bool) (n i : Nat) :
    hasDeleteReq (deleteLoop thumb ok (n + 1) i).2 = true := by
  by_cases h : ok i = true <;> simp [deleteLoop, h, hasDeleteReq]

/-- C1: in `fetch_and_clean`, every record is processed independently of
the outcomes of the others (the trace of a listing splits around any one
record), and a server-side deletion request is issued for a record iff its
local download succeeded and the record carries a present deletion handle
(thumbnail) — present in the sense of the code's
`if not video_meta.get('thumbnail')` check, under which a missing and an
empty-string handle are equally absent; in particular a download failure
never triggers a deletion request. -/
theorem fetch_and_clean_delete_iff (maxRetries : Nat) (hN : 0 < maxRetries)
    (dOk : VideoMeta → Bool) (delOk : VideoMeta → Nat → Bool) :
    (∀ v1 v2 m, fetch_and_clean maxRetries dOk delOk (v1 ++ m :: v2) =
        fetch_and_clean maxRetries dOk delOk v1 ++
        processRecord maxRetries dOk delOk m ++
        fetch_and_clean maxRetries dOk delOk v2) ∧
    (∀ m, hasDeleteReq (processRecord maxRetries dOk delOk m) =
        (dOk m && truthyHandle m.thumbnail)) := by
  constructor
  · intro v1
    induction v1 with
    | nil => intro v2 m; simp [fetch_and_clean]
    | cons a as ih => intro v2 m; simp [fetch_and_clean, ih]
  · intro m
    by_cases hd : dOk m = true
    · cases ht : m.thumbnail with
      | none =>
        simp [processRecord, hd, delete_video_from_server, ht, hasDeleteReq, truthyHandle]
      | some thumb =>
        by_cases hts : thumb = ""
        · simp [processRecord, hd, delete_video_from_server, ht, hts, hasDeleteReq,
            truthyHandle]
        · obtain ⟨k, rfl⟩ : ∃ k, maxRetries = k + 1 :=
            ⟨maxRetries - 1, (Nat.succ_pred_eq_of_pos hN).symm⟩
          have := deleteLoop_issues_request thumb (delOk m) k 0
          simp [processRecord, hd, delete_video_from_server, ht, hts, hasDeleteReq,
            truthyHandle] at this ⊢
          simpa using this
    · simp at hd
      simp [processRecord, hd, hasDeleteReq]

/-- Witness for C1 at a concrete record: download succeeds and a non-empty
thumbnail is present, so a deletion request appears in the trace. -/
theorem fetch_and_clean_delete_iff_witness :
    hasDeleteReq (processRecord 5 (fun _ => true) (fun _ _ => true)
      ⟨"media/v.mp4", some "t1", "t", "", "", "", ""⟩) = true := by
  have h := (fetch_and_clean_delete_iff 5 (by decide)
    (fun _ => true) (fun _ _ => true)).2 ⟨"media/v.mp4", some "t1", "t", "", "", "", ""⟩
  simpa [truthyHandle] using h

/-- C5 (counterexample): `upload_video` is not exception-free for every
input — when no service handle exists yet and the lazy authentication step
raises (e.g. the client-secrets file is missing), the exception propagates
to the caller instead of resolving to a boolean; the authentication call
and the `MediaFileUpload` construction sit outside the retry loop's
`try`/`except`. -/
theorem upload_video_propagates_setup_error :
    upload_video 5 false (.error "FileNotFoundError: client_secrets.json") (.ok ())
      (fun _ => .success) = .error "FileNotFoundError: client_secrets.json" := rfl

lemma uploadLoop_false_attempts (outcome : Nat → AttemptOutcome) (n : Nat) :
    ∀ i, (uploadLoop outcome n i).1 = false →
      countUploadAttempts (uploadLoop outcome n i).2 = n := by
  induction n with
  | zero => intro i _; simp [uploadLoop, countUploadAttempts]
  | succ k ih =>
    intro i h
    cases ho : outcome i <;>
      simp [uploadLoop, ho, countUploadAttempts, List.filter] at h ⊢
    · exact ih (i + 1) h
    · exact ih (i + 1) h

/-- C5 (amended): once the pre-loop setup succeeds (the authenticated
service is in place or authentication does not raise, and the media handle
is constructed), `upload_video` resolves to a boolean — no attempt
exception escapes the retry loop — and it returns `false` only after all
`maxRetries` attempts are exhausted. -/
theorem upload_video_boolean_after_setup (maxRetries : Nat) (serviceReady : Bool)
    (outcome : Nat → AttemptOutcome) :
    upload_video maxRetries serviceReady (.ok ()) (.ok ()) outcome =
      .ok (uploadLoop outcome maxRetries 0) ∧
    ((uploadLoop outcome maxRetries 0).1 = false →
      countUploadAttempts (uploadLoop outcome maxRetries 0).2 = maxRetries) := by
  constructor
  · cases serviceReady <;> rfl
  · exact uploadLoop_false_attempts outcome maxRetries 0

/-- Witness for C5 (amended): with the setup in place and every attempt
failing, three attempts are made and a boolean `false` is returned. -/
theorem upload_video_boolean_after_setup_witness :
    upload_video 3 true (.ok ()) (.ok ()) (fun _ => .failOther) =
      .ok (uploadLoop (fun _ => .failOther) 3 0) ∧
    countUploadAttempts (uploadLoop (fun _ => .failOther) 3 0).2 = 3 := by
  have h := upload_video_boolean_after_setup 3 true (fun _ => .failOther)
  exact ⟨h.1, h.2 (by decide)⟩

/-- C6: a failed upload attempt whose exception carries HTTP status 403
sleeps the fixed 3600-second cooldown — the same constant for every attempt
number — while any other failure sleeps the standard backoff `2 ^ attempt`;
and the cooldown is longer than each standard backoff that can occur
(for every attempt number below 12, so in particular for any attempt under
the default `MAX_RETRIES = 5`). -/
theorem upload_backoff_classification (outcome : Nat → AttemptOutcome) (n i : Nat) :
    (outcome i = .fail403 →
      (uploadLoop outcome (n + 1) i).2 =
        .attempt i :: .slept 3600 :: (uploadLoop outcome n (i + 1)).2) ∧
    (outcome i = .failOther →
      (uploadLoop outcome (n + 1) i).2 =
        .attempt i :: .slept (2 ^ i) :: (uploadLoop outcome n (i + 1)).2) ∧
    (i < 12 → 2 ^ i < 3600) := by
  refine ⟨fun h => by simp [uploadLoop, h], fun h => by simp [uploadLoop, h], fun h => ?_⟩
  calc 2 ^ i ≤ 2 ^ 11 := Nat.pow_le_pow_right (by decide) (by omega)
    _ < 3600 := by decide

/-- Witness for C6: a rate-limited first attempt sleeps 3600 s, and the
standard backoff of attempt 5 is below the cooldown. -/
theorem upload_backoff_classification_witness :
    (uploadLoop (fun _ => .fail403) 2 0).2 =
      .attempt 0 :: .slept 3600 :: (uploadLoop (fun _ => .fail403) 1 1).2 ∧
    (2 : Nat) ^ 5 < 3600 := by
  have h0 := upload_backoff_classification (fun _ => .fail403) 1 0
  have h5 := upload_backoff_classification (fun _ => .fail403) 1 5
  exact ⟨h0.1 rfl, h5.2.2 (by decide)⟩

lemma noFire_of_ranToday (target d : Nat) (ticks : List (Clock × Bool))
    (h : ∀ t ∈ ticks, (t.1).date = d) :
    firedFlags target ⟨some d⟩ ticks = List.replicate ticks.length false ∧
    successRuns target ⟨some d⟩ ticks = 0 := by
  induction ticks with
  | nil => simp [firedFlags, successRuns]
  | cons t rest ih =>
    obtain ⟨now, succ⟩ := t
    have hd : now.date = d := h (now, succ) (List.mem_cons_self _ _)
    have hs : should_run_daily_process target now ⟨some d⟩ = false := by
      simp [should_run_daily_process, hd]
    have ih' := ih (fun t ht => h t (by simp [ht]))
    simp [firedFlags, successRuns, schedulerTick, hs, List.replicate_succ, ih'.1, ih'.2]

lemma successRuns_le_one (target d : Nat) (ticks : List (Clock × Bool)) :
    ∀ st : SchedState, (∀ t ∈ ticks, (t.1).date = d) →
      successRuns target st ticks ≤ 1 := by
  induction ticks with
  | nil => intro st _; simp [successRuns]
  | cons t rest ih =>
    intro st h
    obtain ⟨now, succ⟩ := t
    have hd : now.date = d := h (now, succ) (List.mem_cons_self _ _)
    have hrest : ∀ t ∈ rest, (t.1).date = d := fun t ht => h t (by simp [ht])
    by_cases hf : should_run_daily_process target now st = true
    · cases succ with
      | false =>
        simp [successRuns, schedulerTick, hf, run_daily_process]
        exact ih st hrest
      | true =>
        have h0 := (noFire_of_ranToday target d rest hrest).2
        simp [successRuns, schedulerTick, hf, run_daily_process, hd, h0]
    · have hf' : should_run_daily_process target now st = false := by
        simpa using hf
      simp [successRuns, schedulerTick, hf']
      exact ih st hrest

/-- C3: over any sequence of scheduler ticks within one calendar date, the
daily pipeline runs successfully at most once; once the last-run date
records today, no further tick that date triggers it at all; a successful
trigger records today's date; a failed run leaves the last-run date
unchanged; and a tick at or after the configured time-of-day whose
last-run date is not today does trigger the pipeline (so a failed run is
retried on every later qualifying tick of the day). -/
theorem scheduler_daily_at_most_once (target d : Nat) (ticks : List (Clock × Bool))
    (st : SchedState) (hticks : ∀ t ∈ ticks, (t.1).date = d) :
    successRuns target st ticks ≤ 1 ∧
    (st.last_daily_process = some d →
      firedFlags target st ticks = List.replicate ticks.length false) ∧
    (∀ now, (schedulerTick target now true st).2 = true →
      (schedulerTick target now true st).1.last_daily_process = some now.date) ∧
    (∀ now succ, (schedulerTick target now false st).1 = st ∧
      (¬ should_run_daily_process target now st = true →
        schedulerTick target now succ st = (st, false))) ∧
    (∀ now, target ≤ now.minutes → st.last_daily_process ≠ some now.date →
      (schedulerTick target now false st).2 = true) := by
  refine ⟨successRuns_le_one target d ticks st hticks, ?_, ?_, ?_, ?_⟩
  · intro hlast
    obtain ⟨l⟩ := st
    cases hlast
    exact (noFire_of_ranToday target d ticks hticks).1
  · intro now h
    by_cases hf : should_run_daily_process target now st = true
    · simp [schedulerTick, hf, run_daily_process]
    · simp [schedulerTick, hf] at h
  · intro now succ
    constructor
    · by_cases hf : should_run_daily_process target now st = true <;>
        simp [schedulerTick, hf, run_daily_process]
    · intro hf
      simp [schedulerTick, hf]
  · intro now hmin hlast
    have hs : should_run_daily_process target now st = true := by
      obtain ⟨l⟩ := st
      cases l with
      | none => simp [should_run_daily_process, hmin]
      | some x =>
        have : x ≠ now.date := fun hx => hlast (by simp [hx])
        simp [should_run_daily_process, hmin, this]
    simp [schedulerTick, hs]

/-- Witness for C3 at two concrete qualifying ticks of one date: at most
one successful run happens. -/
theorem scheduler_daily_at_most_once_witness :
    successRuns 100 ⟨none⟩ [(⟨7, 120⟩, true), (⟨7, 180⟩, true)] ≤ 1 := by
  have h := scheduler_daily_at_most_once 100 7
    [(⟨7, 120⟩, true), (⟨7, 180⟩, true)] ⟨none⟩ (by decide)
  exact h.1

/-- Adjacent-pairs sortedness for the order `sorted` uses. -/
def isSortedB : List String → Bool
  | [] => true
  | [_] => true
  | a :: b :: rest => strLe a b && isSortedB (b :: rest)

lemma charListLe_total (a : List Char) : ∀ b, charListLe a b = true ∨ charListLe b a = true := by
  induction a with
  | nil => intro b; left; rfl
  | cons x xs ih =>
    intro b
    cases b with
    | nil => right; rfl
    | cons y ys =>
      by_cases hxy : x = y
      · subst hxy
        rcases ih ys with h | h
        · left; simp [charListLe, h]
        · right; simp [charListLe, h]
      · rcases lt_or_gt_of_ne hxy with h | h
        · left; simp [charListLe, hxy, h]
        · right; simp [charListLe, Ne.symm hxy, h, not_lt_of_gt h]

lemma strLe_total (a b : String) : strLe a b = true ∨ strLe b a = true :=
  charListLe_total a.toList b.toList

lemma strLe_of_not (a b : String) (h : ¬ strLe a b = true) : strLe b a = true := by
  rcases strLe_total a b with h' | h'
  · exact absurd h' h
  · exact h'

lemma mem_insertSorted (x a : String) : ∀ l, a ∈ insertSorted x l ↔ (a = x ∨ a ∈ l) := by
  intro l
  induction l with
  | nil => simp [insertSorted]
  | cons y ys ih =>
    by_cases h : strLe x y = true
    · simp [insertSorted, h]
    · simp [insertSorted, h, ih]
      tauto

lemma mem_sortStrings (a : String) : ∀ l, a ∈ sortStrings l ↔ a ∈ l := by
  intro l
  induction l with
  | nil => simp [sortStrings]
  | cons x xs ih => simp [sortStrings, mem_insertSorted, ih]

lemma isSortedB_insertSorted (x : String) :
    ∀ l, isSortedB l = true → isSortedB (insertSorted x l) = true := by
  intro l
  induction l with
  | nil => intro _; rfl
  | cons y ys ih =>
    intro h
    by_cases hxy : strLe x y = true
    · simpa [insertSorted, hxy, isSortedB] using h
    · have hyx : strLe y x = true := strLe_of_not x y hxy
      cases ys with
      | nil => simp [insertSorted, hxy, isSortedB, hyx]
      | cons z zs =>
        have hyz : strLe y z = true := by
          simpa [isSortedB] using (And.left (by simpa [isSortedB] using h))
        have hzzs : isSortedB (z :: zs) = true := by
          simpa [isSortedB] using (And.right (by simpa [isSortedB] using h))
        have hins := ih hzzs
        by_cases hxz : strLe x z = true
        · simp [insertSorted, hxy, hxz, isSortedB, hyx, hyz, hzzs]
        · simp [insertSorted, hxy, hxz, isSortedB, hyz]
          simpa [insertSorted, hxz, isSortedB] using hins

lemma isSortedB_sortStrings : ∀ l, isSortedB (sortStrings l) = true := by
  intro l
  induction l with
  | nil => rfl
  | cons x xs ih => exact isSortedB_insertSorted x (sortStrings xs) ih

/-- C7: when the day-bucket directory is absent, or exists but holds no
`.mp4` file, `process_daily_videos` returns `false` having left the
directory untouched and performed no effect at all. -/
theorem process_daily_videos_no_input (dataDir titleStem date_str : String)
    (concatOk uploadOk : Bool) (fs : FS)
    (h : fs.dirExists = false ∨
      fs.files.filter (fun f => listEndsWith ".mp4".toList f.toList) = []) :
    process_daily_videos dataDir titleStem date_str concatOk uploadOk fs =
      (false, fs, []) := by
  rcases h with h | h
  · simp [process_daily_videos, h]
  · cases hd : fs.dirExists with
    | false => simp [process_daily_videos, hd]
    | true =>
      have h0 : get_video_files fs = [] := by
        unfold get_video_files
        rw [hd, h]
        rfl
      simp [process_daily_videos, hd, h0]

/-- Witness for C7: a day-bucket with only a text file yields `false` and
no mutation. -/
theorem process_daily_videos_no_input_witness :
    process_daily_videos "/data/videos" "RPiCam" "2025-08-12" true true
      ⟨true, ["notes.txt"]⟩ = (false, ⟨true, ["notes.txt"]⟩, []) := by
  exact process_daily_videos_no_input "/data/videos" "RPiCam" "2025-08-12" true true
    ⟨true, ["notes.txt"]⟩ (Or.inr (by decide))

/-- C10: `get_video_files` returns, sorted, exactly the `.mp4` names in the
day-bucket with no further filtering; in particular a leftover
`<date>_combined.mp4` from a previous run whose publish failed is part of
the next run's input file list (it reappears in the manifest the next
`process_daily_videos` run writes for that date). -/
theorem get_video_files_spec :
    (∀ fs : FS, fs.dirExists = true →
      (∀ f, f ∈ get_video_files fs ↔
        (f ∈ fs.files ∧ listEndsWith ".mp4".toList f.toList = true)) ∧
      isSortedB (get_video_files fs) = true) ∧
    get_video_files ⟨true, ["video001.mp4", "2025-08-12_combined.mp4", "files.txt"]⟩ =
      ["2025-08-12_combined.mp4", "video001.mp4"] ∧
    PEvent.wroteManifest ["2025-08-12_combined.mp4", "video001.mp4"] ∈
      (process_daily_videos "/data/videos" "RPiCam" "2025-08-12" true true
        ⟨true, ["video001.mp4", "2025-08-12_combined.mp4", "files.txt"]⟩).2.2 := by
  refine ⟨?_, by decide, by decide⟩
  intro fs hd
  constructor
  · intro f
    simp [get_video_files, hd, mem_sortStrings, List.mem_filter]
  · simp [get_video_files, hd, isSortedB_sortStrings]

/-- Witness for C10 at a concrete day-bucket: membership of an `.mp4` file
in the returned list. -/
theorem get_video_files_spec_witness :
    "a.mp4" ∈ get_video_files ⟨true, ["b.txt", "a.mp4"]⟩ ↔
      ("a.mp4" ∈ (FS.mk true ["b.txt", "a.mp4"]).files ∧
       listEndsWith ".mp4".toList "a.mp4".toList = true) := by
  exact (get_video_files_spec.1 ⟨true, ["b.txt", "a.mp4"]⟩ rfl).1 "a.mp4"

lemma addFile_dirExists (fs : FS) (n : String) : (addFile fs n).dirExists = fs.dirExists := by
  by_cases h : n ∈ fs.files <;> simp [addFile, h]

lemma mem_addFile_self (fs : FS) (n : String) : n ∈ (addFile fs n).files := by
  by_cases h : n ∈ fs.files <;> simp [addFile, h]

lemma mem_addFile_mono (fs : FS) (n x : String) (h : x ∈ fs.files) :
    x ∈ (addFile fs n).files := by
  by_cases h' : n ∈ fs.files <;> simp [addFile, h', h]

lemma cleanup_dirExists : ∀ (l : List String) (fs : FS),
    (cleanup_files fs l).1.dirExists = fs.dirExists := by
  intro l
  induction l with
  | nil => intro fs; rfl
  | cons f rest ih =>
    intro fs
    by_cases h : f ∈ fs.files <;> simp [cleanup_files, h, ih]

lemma cleanup_deleted_iff : ∀ (l : List String) (fs : FS) (n : String),
    PEvent.deletedFile n ∈ (cleanup_files fs l).2 ↔ (n ∈ l ∧ n ∈ fs.files) := by
  intro l
  induction l with
  | nil => intro fs n; simp [cleanup_files]
  | cons f rest ih =>
    intro fs n
    by_cases h : f ∈ fs.files
    · simp [cleanup_files, h, ih, List.mem_filter]
      constructor
      · rintro (rfl | ⟨hr, hm, _⟩)
        · exact ⟨Or.inl rfl, h⟩
        · exact ⟨Or.inr hr, hm⟩
      · rintro ⟨hnf | hr, hm⟩
        · exact Or.inl hnf
        · by_cases hne : n = f
          · exact Or.inl hne
          · exact Or.inr ⟨hr, hm, hne⟩
    · simp [cleanup_files, h, ih]
      intro hm hnf
      exact absurd (hnf ▸ hm) h

lemma cleanup_no_removedDir : ∀ (l : List String) (fs : FS),
    PEvent.removedDir ∉ (cleanup_files fs l).2 := by
  intro l
  induction l with
  | nil => intro fs; simp [cleanup_files]
  | cons f rest ih =>
    intro fs
    by_cases h : f ∈ fs.files <;> simp [cleanup_files, h, ih]

lemma cleanup_uploadCalls : ∀ (l : List String) (fs : FS),
    uploadCalls (cleanup_files fs l).2 = [] := by
  intro l
  induction l with
  | nil => intro fs; simp [cleanup_files, uploadCalls]
  | cons f rest ih =>
    intro fs
    by_cases h : f ∈ fs.files <;> simp [cleanup_files, h, ih, uploadCalls] <;>
      simpa [uploadCalls] using ih _

lemma mem_fs_of_mem_get (fs : FS) (n : String) (h : n ∈ get_video_files fs) :
    n ∈ fs.files := by
  cases hd : fs.dirExists with
  | false => simp [get_video_files, hd] at h
  | true =>
    simp [get_video_files, hd, mem_sortStrings, List.mem_filter] at h
    exact h.1

lemma files_to_delete_mem (fs : FS) (date_str : String) :
    ∀ n, n ∈ get_video_files fs ∨ n = "files.txt" ∨ n = date_str ++ "_combined.mp4" →
      n ∈ (addFile (addFile fs "files.txt") (date_str ++ "_combined.mp4")).files := by
  rintro n (hm | rfl | rfl)
  · exact mem_addFile_mono _ _ _ (mem_addFile_mono _ _ _ (mem_fs_of_mem_get fs n hm))
  · exact mem_addFile_mono _ _ _ (mem_addFile_self _ _)
  · exact mem_addFile_self _ _

/-- C2: `process_daily_videos` returns `true` iff the upload step was
reached and succeeded; on success, the names whose deletion the cleanup
records are exactly the original media files, the manifest `files.txt`,
and the merged artifact `<date>_combined.mp4`; and the day-bucket
directory is removed iff it is empty after the cleanup, a non-empty
directory being tolerated without changing the success result. -/
theorem process_daily_videos_success_spec (dataDir titleStem date_str : String)
    (concatOk uploadOk : Bool) (fs : FS) :
    ((process_daily_videos dataDir titleStem date_str concatOk uploadOk fs).1 = true ↔
      (uploadOk = true ∧
        uploadCalls (process_daily_videos dataDir titleStem date_str concatOk uploadOk fs).2.2 ≠ [])) ∧
    ((process_daily_videos dataDir titleStem date_str concatOk uploadOk fs).1 = true →
      (∀ n, PEvent.deletedFile n ∈
          (process_daily_videos dataDir titleStem date_str concatOk uploadOk fs).2.2 ↔
        (n ∈ get_video_files fs ∨ n = "files.txt" ∨ n = date_str ++ "_combined.mp4")) ∧
      ((process_daily_videos dataDir titleStem date_str concatOk uploadOk fs).2.1.dirExists = false ↔
        (process_daily_videos dataDir titleStem date_str concatOk uploadOk fs).2.1.files = []) ∧
      (PEvent.removedDir ∈
          (process_daily_videos dataDir titleStem date_str concatOk uploadOk fs).2.2 ↔
        (process_daily_videos dataDir titleStem date_str concatOk uploadOk fs).2.1.files = [])) := by
  cases hd : fs.dirExists with
  | false => simp [process_daily_videos, hd, uploadCalls]
  | true =>
    by_cases hfiles : get_video_files fs = []
    · simp [process_daily_videos, hd, hfiles, uploadCalls]
    · cases hc : concatOk with
      | false =>
        simp [process_daily_videos, hd, hfiles, hc, concatenate_videos, uploadCalls]
      | true =>
        cases hu : uploadOk with
        | false =>
          simp [process_daily_videos, hd, hfiles, hc, hu, concatenate_videos, uploadCalls]
        | true =>
          by_cases hempty :
            (cleanup_files (addFile (addFile fs "files.txt") (date_str ++ "_combined.mp4"))
              (get_video_files fs ++ ["files.txt", date_str ++ "_combined.mp4"])).1.files = []
          · simp [process_daily_videos, hd, hfiles, hc, hu, concatenate_videos, hempty,
              uploadCalls, cleanup_uploadCalls, cleanup_deleted_iff, cleanup_dirExists,
              cleanup_no_removedDir, addFile_dirExists]
            exact files_to_delete_mem fs date_str
          · simp [process_daily_videos, hd, hfiles, hc, hu, concatenate_videos, hempty,
              uploadCalls, cleanup_uploadCalls, cleanup_deleted_iff, cleanup_dirExists,
              cleanup_no_removedDir, addFile_dirExists]
            exact files_to_delete_mem fs date_str


/-- A day-bucket with two media files, as in the C8 scenario. -/
def fsTwo : FS := ⟨true, ["video001.mp4", "video002.mp4"]⟩

/-- C8 (counterexample): in the scenario `processDay("2025-08-12")` with
two files, successful merge and successful publish, the publish
collaborator is called with the artifact path
`<dataDir>/2025-08-12/2025-08-12_combined.mp4` — not with
`<dataDir>/2025-08-12/2025-08-12_combined` as the claim states (the
`.mp4` extension is part of the artifact name). -/
theorem upload_call_path_counterexample :
    uploadCalls (process_daily_videos "/data/videos" "RPiCam" "2025-08-12" true true fsTwo).2.2 =
      [("/data/videos/2025-08-12/2025-08-12_combined.mp4", "RPiCam 2025-08-12")] ∧
    ("/data/videos/2025-08-12/2025-08-12_combined", "RPiCam 2025-08-12") ∉
      uploadCalls (process_daily_videos "/data/videos" "RPiCam" "2025-08-12" true true fsTwo).2.2 := by
  decide

lemma cleanup_no_uploadCalled : ∀ (l : List String) (fs : FS) (p t : String),
    PEvent.uploadCalled p t ∉ (cleanup_files fs l).2 := by
  intro l
  induction l with
  | nil => intro fs p t; simp [cleanup_files]
  | cons f rest ih =>
    intro fs p t
    by_cases h : f ∈ fs.files <;> simp [cleanup_files, h, ih]

/-- C8 (amended): the scenario run calls the publish collaborator with
title `"RPiCam 2025-08-12"` (configured title prefix, space, date key) and
artifact path `<dataDir>/2025-08-12/2025-08-12_combined.mp4`; in general
every publish call of `process_daily_videos` uses the artifact path
`<dataDir>/<date>/<date>_combined.mp4` and title `<prefix> <date>` — a
deterministic pure function of the date key. -/
theorem upload_call_path_amended :
    uploadCalls (process_daily_videos "/data/videos" "RPiCam" "2025-08-12" true true fsTwo).2.2 =
      [("/data/videos/2025-08-12/2025-08-12_combined.mp4", "RPiCam 2025-08-12")] ∧
    ∀ (dataDir titleStem date_str : String) (concatOk uploadOk : Bool) (fs : FS) pt,
      pt ∈ uploadCalls (process_daily_videos dataDir titleStem date_str concatOk uploadOk fs).2.2 →
      pt = (joinPath (joinPath dataDir date_str) (date_str ++ "_combined.mp4"),
            titleStem ++ " " ++ date_str) := by
  refine ⟨by decide, ?_⟩
  intro dataDir titleStem date_str concatOk uploadOk fs pt hpt
  cases hd : fs.dirExists with
  | false => simp [process_daily_videos, hd, uploadCalls] at hpt
  | true =>
    by_cases hfiles : get_video_files fs = []
    · simp [process_daily_videos, hd, hfiles, uploadCalls] at hpt
    · cases hc : concatOk with
      | false =>
        simp [process_daily_videos, hd, hfiles, hc, concatenate_videos, uploadCalls] at hpt
      | true =>
        cases hu : uploadOk with
        | false =>
          simp [process_daily_videos, hd, hfiles, hc, hu, concatenate_videos,
            uploadCalls] at hpt
          exact hpt
        | true =>
          by_cases hempty :
            (cleanup_files (addFile (addFile fs "files.txt") (date_str ++ "_combined.mp4"))
              (get_video_files fs ++ ["files.txt", date_str ++ "_combined.mp4"])).1.files = []
          · simp [process_daily_videos, hd, hfiles, hc, hu, concatenate_videos, hempty,
              uploadCalls] at hpt
            rcases hpt with h | ⟨a, ha, hm⟩
            · exact h
            · cases a <;> simp at hm
              exact absurd ha (cleanup_no_uploadCalled _ _ _ _)
          · simp [process_daily_videos, hd, hfiles, hc, hu, concatenate_videos, hempty,
              uploadCalls] at hpt
            rcases hpt with h | ⟨a, ha, hm⟩
            · exact h
            · cases a <;> simp at hm
              exact absurd ha (cleanup_no_uploadCalled _ _ _ _)

/-- Witness for C8 (amended) at the scenario input: the called path and
title equal the deterministic composition. -/
theorem upload_call_path_amended_witness :
    ("/data/videos/2025-08-12/2025-08-12_combined.mp4", "RPiCam 2025-08-12") =
      (joinPath (joinPath "/data/videos" "2025-08-12") ("2025-08-12" ++ "_combined.mp4"),
       "RPiCam" ++ " " ++ "2025-08-12") := by
  exact upload_call_path_amended.2 "/data/videos" "RPiCam" "2025-08-12" true true fsTwo _
    (by decide)

/-- Witness for C2 at a concrete successful run: the single original
media file is deleted by the cleanup. -/
theorem process_daily_videos_success_spec_witness :
    PEvent.deletedFile "a.mp4" ∈
      (process_daily_videos "/data/videos" "RPiCam" "2025-08-12" true true
        ⟨true, ["a.mp4"]⟩).2.2 := by
  have h := process_daily_videos_success_spec "/data/videos" "RPiCam" "2025-08-12" true true
    ⟨true, ["a.mp4"]⟩
  exact ((h.2 (by decide)).1 "a.mp4").mpr (Or.inl (by decide))

end RPiCam
